import Mathlib

/-!
Shallow embedding of the openherd/cow node (Rust) for checking its
specification.  The embedding follows the source files:

* `src/types.rs`      — data model (`Envelope`, `Post`, `KarmaCode`, …)
* `src/state.rs`      — `AppState`, `PeerStatus`
* `src/validation.rs` — `validate_envelope`, `validate_post`
* `src/handlers.rs`   — `inbox`, `apply_karma_internal`, `karma_upvote`,
                        `karma_downvote`, `karma_revoke`,
                        `admin_generate_karma_codes`
* `src/main.rs`       — startup rehydration, `peer_monitor`

Modelling conventions:

* Rust `HashMap<String, V>` values are modelled as functions
  `String → Option V`; `insert`/`remove` are pointwise updates.  The sled
  database is modelled as an association list (iteration order is needed
  for rehydration).
* `chrono::DateTime<Utc>` values are modelled as `Int` timestamps in
  seconds; `chrono::Duration::minutes 5` is the constant `300`.
* `f64` latitude/longitude values are modelled as `Rat`: the comparisons
  in `validate_post` only use the order on the represented values, and the
  order on non-NaN doubles embeds in the rationals.
* The OpenPGP and JSON library calls (key parsing, fingerprinting,
  signature verification, `serde_json` round-trips) are parameters of the
  embedding, collected in a `Crypto` structure; all control flow around
  them is translated from the source.
-/

deriving instance DecidableEq for Except

namespace Cow

/-- Envelope mirrors `types.rs::Envelope`. -/
structure Envelope where
  signature : String
  public_key : String
  id : String
  data : String
deriving DecidableEq, Repr

/-- Post mirrors `types.rs::Post` (`f64` coordinates as `Rat`, the
`date` as an `Int` timestamp in seconds). -/
structure Post where
  id : String
  text : String
  latitude : Rat
  longitude : Rat
  date : Int
  parent : Option String
deriving DecidableEq, Repr

/-- ValidationError mirrors `types.rs::ValidationError`.  The payload
strings of `InvalidPostData` and the wrapped library errors are dropped:
only the constructor is ever branched on. -/
inductive ValidationError where
  | invalidSignature
  | invalidPublicKey
  | idMismatch
  | invalidPostData (msg : String)
  | pgpError
  | jsonError
deriving DecidableEq, Repr

/-- GeoRegion mirrors `types.rs::GeoRegion`. -/
structure GeoRegion where
  lat : Rat
  lon : Rat
  radius_km : Rat
deriving DecidableEq, Repr

/-- KarmaCode mirrors `types.rs::KarmaCode`. -/
structure KarmaCode where
  code : String
  issuer : String
  vote_type : Option String
  expires : Int
  region : Option GeoRegion
  current_post : Option String
  used_direction : Option String
deriving DecidableEq, Repr

/-- KarmaGenerateRequest mirrors `types.rs::KarmaGenerateRequest`
(`count` is a `u32`, modelled as `Nat`). -/
structure KarmaGenerateRequest where
  count : Nat
  issuer : String
  vote_type : Option String
  expires : Int
  region : Option GeoRegion
deriving DecidableEq, Repr

/-- PeerStatus mirrors `state.rs::PeerStatus` (`failures` is a `u8`,
modelled as `Nat`; every reachable value stays ≤ 255). -/
structure PeerStatus where
  failures : Nat
  last_ok : Option Int
deriving DecidableEq, Repr

/-- StatusCode covers the `axum::http::StatusCode` values returned by the
handlers under study. -/
inductive StatusCode where
  | badRequest
  | unauthorized
  | notFound
  | conflict
  | gone
  | internalServerError
deriving DecidableEq, Repr

/-- Crypto packages the library calls used by `validation.rs` and the
store serialization, which are outside the repository: `fingerprint`
models `SignedPublicKey::from_string` followed by
`hex::encode(key.fingerprint())` (`none` = parse failure); `verify`
models `StandaloneSignature::from_string` plus `signature.verify`
(signature text, data, public-key text); `parsePost` models
`serde_json::from_str::<Post>`; `serializeEnv`/`deserializeEnv` model the
`serde_json` round-trip used by the sled store. -/
structure Crypto where
  fingerprint : String → Option String
  verify : String → String → String → Bool
  parsePost : String → Option Post
  serializeEnv : Envelope → String
  deserializeEnv : String → Option Envelope

/-- Pointwise-update insert for the `HashMap<String, V>` model. -/
def mapInsert {α : Type} (m : String → Option α) (k : String) (v : α) :
    String → Option α :=
  fun q => if q = k then some v else m q

/-- Pointwise-update remove for the `HashMap<String, V>` model. -/
def mapRemove {α : Type} (m : String → Option α) (k : String) :
    String → Option α :=
  fun q => if q = k then none else m q

/-- Lookup in the association-list model of the sled database. -/
def dbGet : List (String × String) → String → Option String
  | [], _ => none
  | (k', v') :: rest, k => if k' = k then some v' else dbGet rest k

/-- Insert with overwrite in the association-list model of sled
(`db.insert` replaces the value of an existing key). -/
def dbInsert : List (String × String) → String → String → List (String × String)
  | [], k, v => [(k, v)]
  | (k', v') :: rest, k, v =>
    if k' = k then (k, v) :: rest else (k', v') :: dbInsert rest k v

/-- Remove in the association-list model of sled (`db.remove`). -/
def dbRemove : List (String × String) → String → List (String × String)
  | [], _ => []
  | (k', v') :: rest, k =>
    if k' = k then dbRemove rest k else (k', v') :: dbRemove rest k

/-- AppState mirrors `state.rs::AppState`; the fields not touched by the
claims under study (moderation reports, labels) are omitted. -/
structure AppState where
  memory : String → Option Envelope
  db : List (String × String)
  peers : String → Option PeerStatus
  karma_codes : String → Option KarmaCode
  karma_votes : String → Option Int
  admin_passwords : List String

/-- AppState.new from `state.rs` (empty maps around a given database). -/
def initState (db : List (String × String)) : AppState :=
  { memory := fun _ => none
    db := db
    peers := fun _ => none
    karma_codes := fun _ => none
    karma_votes := fun _ => none
    admin_passwords := [] }

/-- AppState.is_admin from `state.rs`. -/
def is_admin (s : AppState) (password : String) : Bool :=
  s.admin_passwords.any (fun p => p = password)

/-! ### validation.rs -/

/-- Check that a character list begins with a pattern (used to model the
byte-level `starts_with` and substring containment on ASCII text). -/
def charsLead : List Char → List Char → Bool
  | [], _ => true
  | _ :: _, [] => false
  | a :: as, b :: bs => a == b && charsLead as bs

/-- Substring containment on character lists. -/
def charsHave (pat : List Char) : List Char → Bool
  | [] => pat.isEmpty
  | c :: rest => charsLead pat (c :: rest) || charsHave pat rest

/-- Model of Rust `str::contains` for the ASCII marker constants. -/
def strHas (s pat : String) : Bool :=
  charsHave pat.data s.data

/-- Model of Rust `char::is_ascii_hexdigit`. -/
def isAsciiHexDigit (c : Char) : Bool :=
  c.isDigit || (97 ≤ c.toNat && c.toNat ≤ 102) || (65 ≤ c.toNat && c.toNat ≤ 70)

/-- ASCII alphanumeric (the exact range of the `rand::Alphanumeric`
distribution: 0-9, A-Z, a-z). -/
def isAsciiAlnum (c : Char) : Bool :=
  (48 ≤ c.toNat && c.toNat ≤ 57) || (65 ≤ c.toNat && c.toNat ≤ 90) ||
    (97 ≤ c.toNat && c.toNat ≤ 122)

/-- Uppercase ASCII alphanumeric: 0-9 or A-Z. -/
def isUpperAlnum (c : Char) : Bool :=
  (48 ≤ c.toNat && c.toNat ≤ 57) || (65 ≤ c.toNat && c.toNat ≤ 90)

/-- Model of Rust `str::to_lowercase` on the ASCII hex strings compared
by the validator. -/
def strLower (s : String) : String :=
  String.mk (s.data.map Char.toLower)

/-- Model of Rust `post.text.trim().is_empty()`: true iff every character
is whitespace. -/
def isBlank (s : String) : Bool :=
  s.data.all Char.isWhitespace

/-- validate_envelope_structure from `validation.rs`. -/
def validate_envelope_structure (envelope : Envelope) :
    Except ValidationError Unit :=
  if envelope.signature = "" then .error .invalidSignature
  else if envelope.public_key = "" then .error .invalidPublicKey
  else if envelope.id = "" then .error .idMismatch
  else if envelope.data = "" then .error (.invalidPostData "Empty data field")
  else if !strHas envelope.signature "-----BEGIN PGP SIGNATURE-----" then
    .error .invalidSignature
  else if !strHas envelope.public_key "-----BEGIN PGP PUBLIC KEY BLOCK-----" then
    .error .invalidPublicKey
  else if !envelope.id.data.all isAsciiHexDigit then .error .idMismatch
  else .ok ()

/-- validate_post from `validation.rs`; `now` is the wall clock sampled
by `chrono::Utc::now()` at validation time, and the five-minute future
tolerance is 300 seconds. -/
def validate_post (now : Int) (post : Post) : Except ValidationError Unit :=
  if isBlank post.text then
    .error (.invalidPostData "Post text cannot be empty")
  else if post.latitude < -90 ∨ post.latitude > 90 then
    .error (.invalidPostData "Invalid latitude range")
  else if post.longitude < -180 ∨ post.longitude > 180 then
    .error (.invalidPostData "Invalid longitude range")
  else if post.date > now + 300 then
    .error (.invalidPostData "Post date cannot be in the future")
  else .ok ()

/-- validate_envelope from `validation.rs` (structure check, key parse +
fingerprint comparison, signature verification, payload parse, id
equality, post-field validation). -/
def validate_envelope (c : Crypto) (now : Int) (envelope : Envelope) :
    Except ValidationError Post := do
  validate_envelope_structure envelope
  match c.fingerprint envelope.public_key with
  | none => .error .pgpError
  | some fp =>
    if strLower fp ≠ strLower envelope.id then .error .idMismatch
    else if !c.verify envelope.signature envelope.data envelope.public_key then
      .error .pgpError
    else
      match c.parsePost envelope.data with
      | none => .error .jsonError
      | some post =>
        if post.id ≠ envelope.id then
          .error (.invalidPostData "Post ID does not match envelope ID")
        else do
          validate_post now post
          .ok post

/-! ### handlers.rs -/

/-- Loop body of `handlers.rs::inbox`: validate each envelope; on success
serialize it into the database under the raw id key and insert it into
the in-memory index, counting it as imported; on failure record an error
message.  Returns (state, imported_count, errors). -/
def inboxLoop (c : Crypto) (now : Int) :
    List Envelope → AppState → Nat → List String →
      AppState × Nat × List String
  | [], s, imported, errs => (s, imported, errs)
  | envelope :: rest, s, imported, errs =>
    match validate_envelope c now envelope with
    | .ok _ =>
      let id := envelope.id
      let s' := { s with
        db := dbInsert s.db id (c.serializeEnv envelope)
        memory := mapInsert s.memory id envelope }
      inboxLoop c now rest s' (imported + 1) errs
    | .error _ =>
      inboxLoop c now rest s imported
        (errs ++ ["Error validating post " ++ envelope.id])

/-- inbox from `handlers.rs`; returns the state of the shared lock after
the handler together with the HTTP result (`.ok ()` stands for
`Json(ApiResponse{ok:true})`).  The final `db.flush()` has no effect in
the model. -/
def inbox (c : Crypto) (now : Int) (s : AppState) (envelopes : List Envelope) :
    AppState × Except StatusCode Unit :=
  let r := inboxLoop c now envelopes s 0 []
  let s' := r.1
  let imported := r.2.1
  let errors := r.2.2
  if imported = 0 ∧ errors ≠ [] then (s', .error .badRequest)
  else (s', .ok ())

/-- apply_karma_internal from `handlers.rs`.  `karma_code` is the clone
the caller looked up before validation; the `get_mut` on
`s.karma_codes` is modelled by a lookup followed by an insert. -/
def apply_karma_internal (now : Int) (s : AppState) (karma_code : KarmaCode)
    (code : String) (envelope : Envelope) (direction : String) :
    AppState × Except StatusCode Unit :=
  if karma_code.expires < now then (s, .error .gone)
  else if karma_code.current_post.isSome then (s, .error .conflict)
  else if (match karma_code.vote_type with
           | some vt => vt ≠ direction
           | none => false : Bool) then (s, .error .badRequest)
  else
    let post_id := envelope.id
    let delta : Int := if direction = "upvote" then 1 else -1
    let codes := match s.karma_codes code with
      | some kc =>
        mapInsert s.karma_codes code
          { kc with
            current_post := some post_id
            used_direction := some direction
            vote_type := match kc.vote_type with
              | none => some direction
              | some t => some t }
      | none => s.karma_codes
    let votes :=
      mapInsert s.karma_votes post_id ((s.karma_votes post_id).getD 0 + delta)
    ({ s with karma_codes := codes, karma_votes := votes }, .ok ())

/-- Shared body of `handlers.rs::karma_upvote` and
`handlers.rs::karma_downvote` (the two handlers duplicate this code with
the direction literals "upvote" and "downvote"): look the code up
(404 on a miss), validate the envelope (400 on failure), then delegate to
`apply_karma_internal`. -/
def karma_vote (c : Crypto) (now : Int) (s : AppState) (code : String)
    (envelope : Envelope) (direction : String) :
    AppState × Except StatusCode Unit :=
  match s.karma_codes code with
  | none => (s, .error .notFound)
  | some karma_code =>
    match validate_envelope c now envelope with
    | .error _ => (s, .error .badRequest)
    | .ok _ => apply_karma_internal now s karma_code code envelope direction

/-- karma_upvote from `handlers.rs`. -/
def karma_upvote (c : Crypto) (now : Int) (s : AppState) (code : String)
    (envelope : Envelope) : AppState × Except StatusCode Unit :=
  karma_vote c now s code envelope "upvote"

/-- karma_downvote from `handlers.rs`. -/
def karma_downvote (c : Crypto) (now : Int) (s : AppState) (code : String)
    (envelope : Envelope) : AppState × Except StatusCode Unit :=
  karma_vote c now s code envelope "downvote"

/-- karma_revoke from `handlers.rs`: 404 on a missing code; if the code
is spent, add the inverse delta (direction from `used_direction`, falling
back to `vote_type`, defaulting to "upvote") to the existing
`karma_votes` entry (a missing entry is left missing); finally clear
`current_post` and `used_direction`, keeping `vote_type`. -/
def karma_revoke (s : AppState) (code : String) :
    AppState × Except StatusCode Unit :=
  match s.karma_codes code with
  | none => (s, .error .notFound)
  | some karma_code =>
    let votes := match karma_code.current_post with
      | some post_id =>
        let direction := match karma_code.used_direction with
          | some d => d
          | none => match karma_code.vote_type with
            | some d => d
            | none => "upvote"
        let delta : Int := if direction = "upvote" then -1 else 1
        match s.karma_votes post_id with
        | some score => mapInsert s.karma_votes post_id (score + delta)
        | none => s.karma_votes
      | none => s.karma_votes
    let codes := match s.karma_codes code with
      | some kc =>
        mapInsert s.karma_codes code
          { kc with current_post := none, used_direction := none }
      | none => s.karma_codes
    ({ s with karma_votes := votes, karma_codes := codes }, .ok ())

/-- Character stream of one generation iteration: the `rand` sampler is a
parameter `rng`, iteration `i` consumes positions `10*i .. 10*i+9`
(`sample_iter(&Alphanumeric).take(10)`), and the result is uppercased
(`.to_uppercase()` on an ASCII-alphanumeric string acts per character). -/
def genRaw (rng : Nat → Char) (i : Nat) : List Char :=
  ((List.range 10).map (fun j => rng (10 * i + j))).map Char.toUpper

/-- Code string of one generation iteration:
`format!("{}-{}", &raw[0..5], &raw[5..10])`. -/
def genCode (rng : Nat → Char) (i : Nat) : String :=
  String.mk ((genRaw rng i).take 5) ++ "-" ++ String.mk ((genRaw rng i).drop 5)

/-- admin_generate_karma_codes from `handlers.rs`: admin auth, then
`max(count, 1)` iterations, each creating and inserting a `KarmaCode`
with `vote_type := vt_opt = None` (the request's `vote_type` is ignored),
`current_post := None`, `used_direction := None`; returns the created
list. -/
def admin_generate_karma_codes (rng : Nat → Char) (s : AppState)
    (password : String) (req : KarmaGenerateRequest) :
    Except StatusCode (AppState × List KarmaCode) :=
  if !is_admin s password then .error .unauthorized
  else
    let vt_opt : Option String := none
    let created := (List.range (max req.count 1)).map (fun i =>
      ({ code := genCode rng i
         issuer := req.issuer
         vote_type := vt_opt
         expires := req.expires
         region := req.region
         current_post := none
         used_direction := none } : KarmaCode))
    let codes :=
      created.foldl (fun m kc => mapInsert m kc.code kc) s.karma_codes
    .ok ({ s with karma_codes := codes }, created)

/-! ### main.rs -/

/-- Rehydration loop from `main.rs` (lines 79–89): iterate the database
snapshot; for each record whose key starts with "post:", deserialize the
value — on success insert the envelope into the index under its own id,
on failure remove the record from the database.  Other records are left
untouched. -/
def rehydrateLoop (c : Crypto) :
    List (String × String) → (String → Option Envelope) →
      List (String × String) → (String → Option Envelope) × List (String × String)
  | [], mem, db => (mem, db)
  | (k, v) :: rest, mem, db =>
    if charsLead "post:".data k.data then
      match c.deserializeEnv v with
      | some env => rehydrateLoop c rest (mapInsert mem env.id env) db
      | none => rehydrateLoop c rest mem (dbRemove db k)
    else rehydrateLoop c rest mem db

/-- Process restart followed by startup rehydration: a fresh
`AppState::new` around the persisted database, then the rehydration loop
of `main.rs`. -/
def restartState (c : Crypto) (s : AppState) : AppState :=
  let s0 := initState s.db
  let r := rehydrateLoop c s0.db s0.memory s0.db
  { s0 with memory := r.1, db := r.2 }

/-- Model of Rust `u8::saturating_add(1)` (values stay within 0–255). -/
def satAddOne (n : Nat) : Nat :=
  min (n + 1) 255

/-- Recording step of `main.rs::peer_monitor` for one probed address:
`ok` is whether the GET on the peer's outbox returned a success status.
On success, reset `failures` and stamp `last_ok` when the peer is known,
or insert a fresh healthy entry when it is not.  Otherwise increment
`failures` saturatingly and remove the peer once the result reaches 5; an
unknown peer is left untouched. -/
def monitor_step (now : Int) (peers : String → Option PeerStatus)
    (addr : String) (ok : Bool) : String → Option PeerStatus :=
  if ok then
    match peers addr with
    | some _ => mapInsert peers addr { failures := 0, last_ok := some now }
    | none => mapInsert peers addr { failures := 0, last_ok := some now }
  else
    match peers addr with
    | some p =>
      let f := satAddOne p.failures
      if f ≥ 5 then mapRemove peers addr
      else mapInsert peers addr { p with failures := f }
    | none => peers

/-! ### Concrete fixtures

A small concrete `Crypto` instance and envelopes, used by the witness and
counterexample theorems.  `keyX` carries fingerprint "ab" and signs any
data; "D" and "D2" decode to two different posts with id "ab". -/

/-- Concrete post with id "ab" and in-range fields. -/
def postX : Post :=
  { id := "ab", text := "t", latitude := 0, longitude := 0, date := 0,
    parent := none }

/-- Second concrete post with id "ab" and different text. -/
def postY : Post :=
  { postX with text := "u" }

/-- Concrete public-key text (the armor marker itself). -/
def keyX : String := "-----BEGIN PGP PUBLIC KEY BLOCK-----"

/-- Concrete signature text (the armor marker itself). -/
def sigX : String := "-----BEGIN PGP SIGNATURE-----"

/-- Concrete crypto instance: `keyX` has fingerprint "ab", every
signature under it verifies, and the payloads "D" and "D2" decode to
`postX` and `postY`. -/
def cX : Crypto :=
  { fingerprint := fun k => if k = keyX then some "ab" else none
    verify := fun _ _ _ => true
    parsePost := fun d =>
      if d = "D" then some postX else if d = "D2" then some postY else none
    serializeEnv := fun e => "ser:" ++ e.data
    deserializeEnv := fun _ => none }

/-- Concrete valid envelope with id "ab" and payload "D". -/
def envX : Envelope :=
  { signature := sigX, public_key := keyX, id := "ab", data := "D" }

/-- Concrete valid envelope with id "ab" and payload "D2". -/
def envY : Envelope :=
  { envX with data := "D2" }

/-- Concrete fresh karma code "K" (unspent, no direction lock, expiry
10). -/
def kcX : KarmaCode :=
  { code := "K", issuer := "i", vote_type := none, expires := 10,
    region := none, current_post := none, used_direction := none }

/-- Concrete state holding only the fresh code "K". -/
def sK : AppState :=
  { initState [] with karma_codes := mapInsert (fun _ => none) "K" kcX }

/-- Concrete invalid envelope (empty signature fails the structural
check). -/
def envBad : Envelope :=
  { signature := "", public_key := keyX, id := "ab", data := "D" }

/-- Constant generator stream used by witnesses. -/
def rngA : Nat → Char := fun _ => 'a'

/-- Concrete state with one enrolled admin password. -/
def sAdmin : AppState :=
  { initState [] with admin_passwords := ["pw"] }

/-- Concrete karma-generation request; its `vote_type` is deliberately
set, to exercise the fact that generation ignores it. -/
def req0 : KarmaGenerateRequest :=
  { count := 2, issuer := "i", vote_type := some "upvote", expires := 5,
    region := none }

/-- Spent-implies-scored invariant: whenever a karma code records
`current_post = Some p`, the `karma_votes` map holds an entry for `p`
(so revoke's `get_mut` on `karma_votes[p]` cannot silently miss). -/
def KarmaInv (s : AppState) : Prop :=
  ∀ code kc p, s.karma_codes code = some kc → kc.current_post = some p →
    (s.karma_votes p).isSome = true

/-! ## Helper lemmas -/

/-- Char.ofNat of a valid code point reads back as the same `toNat`. -/
theorem char_ofNat_toNat (n : Nat) (h : n.isValidChar) :
    (Char.ofNat n).toNat = n := by
  simp [Char.ofNat, h, Char.ofNatAux, Char.toNat, UInt32.toNat,
    BitVec.toNat_ofNatLt]

/-- Char.toUpper acts on code points by subtracting 32 on `a`–`z` and
fixing everything else. -/
theorem char_toUpper_toNat (c : Char) :
    c.toUpper.toNat =
      if 97 ≤ c.toNat ∧ c.toNat ≤ 122 then c.toNat - 32 else c.toNat := by
  by_cases h : 97 ≤ c.toNat ∧ c.toNat ≤ 122
  · have hv : (c.toNat - 32).isValidChar := Or.inl (by omega)
    rw [if_pos h, Char.toUpper]
    rw [if_pos ⟨h.1, h.2⟩]
    exact char_ofNat_toNat _ hv
  · rw [if_neg h, Char.toUpper]
    rw [if_neg h]

/-- Uppercasing an ASCII alphanumeric character yields an uppercase
ASCII alphanumeric character. -/
theorem toUpper_alnum (c : Char) (h : isAsciiAlnum c = true) :
    isUpperAlnum c.toUpper = true := by
  simp [isAsciiAlnum] at h
  simp [isUpperAlnum, char_toUpper_toNat]
  split <;> omega

/-! ## C9 — post-field validation boundaries -/

/-- C9: post field validation accepts the closed ranges exactly: with the
other fields in range, latitude 90 and −90 pass while 90.0001 (a value
strictly above 90, as its `f64` rounding also is) fails, and a date of
exactly `now + 5` minutes passes while `now + 5` minutes `+ 1` second
fails, `now` being the wall clock at validation time. -/
theorem validate_post_boundary (now : Int) (idv t : String) (lon : Rat)
    (d : Int) (pr : Option String) (ht : isBlank t = false)
    (hlon1 : -180 ≤ lon) (hlon2 : lon ≤ 180) (hd : d ≤ now + 300) :
    validate_post now
      { id := idv, text := t, latitude := 90, longitude := lon, date := d,
        parent := pr } = .ok ()
    ∧ validate_post now
      { id := idv, text := t, latitude := -90, longitude := lon, date := d,
        parent := pr } = .ok ()
    ∧ (validate_post now
      { id := idv, text := t, latitude := 900001/10000, longitude := lon,
        date := d, parent := pr }).isOk = false
    ∧ validate_post now
      { id := idv, text := t, latitude := 90, longitude := lon,
        date := now + 300, parent := pr } = .ok ()
    ∧ (validate_post now
      { id := idv, text := t, latitude := 90, longitude := lon,
        date := now + 301, parent := pr }).isOk = false := by
  have h1 : ¬ (lon < -180) := not_lt.mpr hlon1
  have h2 : ¬ (lon > 180) := not_lt.mpr hlon2
  have h3 : ¬ (d > now + 300) := not_lt.mpr hd
  have h4 : now + 300 < now + 301 := by omega
  refine ⟨?_, ?_, ?_, ?_, ?_⟩
  · simp [validate_post, ht, h1, h2, h3]
  · simp [validate_post, ht, h1, h2, h3]
  · simp [validate_post, ht, Except.isOk, Except.toBool]
    norm_num
  · simp [validate_post, ht, h1, h2]
  · simp [validate_post, ht, h1, h2, h4, Except.isOk, Except.toBool]
    norm_num

/-- Witness for `validate_post_boundary` at concrete inputs. -/
theorem validate_post_boundary_witness :
    isBlank "t" = false ∧ (-180 : Rat) ≤ 0 ∧ (0 : Rat) ≤ 180 ∧
      (0 : Int) ≤ 0 + 300 ∧
    (validate_post 0
      { id := "p", text := "t", latitude := 90, longitude := 0, date := 0,
        parent := none } = .ok ()
    ∧ validate_post 0
      { id := "p", text := "t", latitude := -90, longitude := 0, date := 0,
        parent := none } = .ok ()
    ∧ (validate_post 0
      { id := "p", text := "t", latitude := 900001/10000, longitude := 0,
        date := 0, parent := none }).isOk = false
    ∧ validate_post 0
      { id := "p", text := "t", latitude := 90, longitude := 0,
        date := 0 + 300, parent := none } = .ok ()
    ∧ (validate_post 0
      { id := "p", text := "t", latitude := 90, longitude := 0,
        date := 0 + 301, parent := none }).isOk = false) :=
  ⟨by decide, by norm_num, by norm_num, by omega,
    validate_post_boundary 0 "p" "t" 0 0 none (by decide) (by norm_num)
      (by norm_num) (by omega)⟩

/-! ## C7 — monitor outcome recording for a registered peer -/

/-- C7: for a registered peer, a successful (2xx) probe resets `failures`
to 0 and stamps `last_ok` with now; any other outcome increments
`failures` with saturating addition (one more when below 255, capped at
255, never above 255) and removes the peer exactly when the resulting
count reaches 5; other registry entries are untouched either way. -/
theorem monitor_step_known (now : Int) (peers : String → Option PeerStatus)
    (addr : String) (p : PeerStatus) (hp : peers addr = some p) :
    monitor_step now peers addr true addr =
      some { failures := 0, last_ok := some now }
    ∧ (satAddOne p.failures ≥ 5 → monitor_step now peers addr false addr = none)
    ∧ (satAddOne p.failures < 5 →
        monitor_step now peers addr false addr =
          some { p with failures := satAddOne p.failures })
    ∧ (p.failures < 255 → satAddOne p.failures = p.failures + 1)
    ∧ (255 ≤ p.failures → satAddOne p.failures = 255)
    ∧ satAddOne p.failures ≤ 255
    ∧ (∀ q, q ≠ addr →
        monitor_step now peers addr true q = peers q
        ∧ monitor_step now peers addr false q = peers q) := by
  refine ⟨?_, ?_, ?_, ?_, ?_, ?_, ?_⟩
  · simp [monitor_step, hp, mapInsert]
  · intro h
    simp [monitor_step, hp, h, mapRemove]
  · intro h
    simp [monitor_step, hp, Nat.not_le.mpr h, mapInsert]
  · intro h
    simp [satAddOne]
    omega
  · intro h
    simp [satAddOne]
    omega
  · simp [satAddOne]
  · intro q hq
    refine ⟨?_, ?_⟩
    · simp [monitor_step, hp, mapInsert, hq]
    · simp only [monitor_step, hp]
      rw [if_neg (by simp)]
      split
      · simp [mapRemove, hq]
      · simp [mapInsert, hq]

/-- Witness for `monitor_step_known` at a concrete registered peer. -/
theorem monitor_step_known_witness :
    (mapInsert (fun _ => none) "u" ({ failures := 4, last_ok := none } : PeerStatus)) "u" =
      some { failures := 4, last_ok := none }
    ∧ (monitor_step 9 (mapInsert (fun _ => none) "u"
          ({ failures := 4, last_ok := none } : PeerStatus)) "u" true "u" =
        some { failures := 0, last_ok := some 9 }
      ∧ (satAddOne 4 ≥ 5 → monitor_step 9 (mapInsert (fun _ => none) "u"
          ({ failures := 4, last_ok := none } : PeerStatus)) "u" false "u" = none)) :=
  ⟨by decide,
    (monitor_step_known 9 _ "u" { failures := 4, last_ok := none } (by decide)).1,
    (monitor_step_known 9 _ "u" { failures := 4, last_ok := none } (by decide)).2.1⟩

/-! ## C6 — the monitor and unknown addresses -/

/-- C6 counterexample: recording a successful probe outcome for an
address absent from the registry does add a new entry, so the claim that
a probe step never adds an entry fails on the success branch. -/
theorem monitor_step_absent_adds :
    ((fun _ => none : String → Option PeerStatus) "u" = none)
    ∧ monitor_step 7 (fun _ => none) "u" true "u" =
        some { failures := 0, last_ok := some 7 }
    ∧ monitor_step 7 (fun _ => none) "u" true ≠
        (fun _ => none : String → Option PeerStatus) := by
  refine ⟨rfl, by decide, ?_⟩
  intro hcontra
  exact absurd (congrFun hcontra "u") (by decide)

/-- C6 (amended): a probe step recorded for an address absent from the
registry leaves the registry unchanged when the outcome is a failure; a
success outcome inserts a fresh healthy entry for that address (so the
monitor can add entries, but only on success). -/
theorem monitor_step_absent (now : Int) (peers : String → Option PeerStatus)
    (addr : String) (h : peers addr = none) :
    monitor_step now peers addr false = peers
    ∧ monitor_step now peers addr true =
        mapInsert peers addr { failures := 0, last_ok := some now } := by
  constructor
  · simp [monitor_step, h]
  · simp [monitor_step, h]

/-- Witness for `monitor_step_absent` at a concrete absent address. -/
theorem monitor_step_absent_witness :
    ((fun _ => none : String → Option PeerStatus) "v" = none)
    ∧ (monitor_step 3 (fun _ => none) "v" false = (fun _ => none)
      ∧ monitor_step 3 (fun _ => none) "v" true =
          mapInsert (fun _ => none) "v" { failures := 0, last_ok := some 3 }) :=
  ⟨rfl, monitor_step_absent 3 (fun _ => none) "v" rfl⟩

/-! ## C8 — karma-code generation -/

/-- C8: for every generation request (with any `count`, `issuer`,
`expires`, optional `region` and `vote_type`) and any
ASCII-alphanumeric sampler, the authorized generation handler creates
exactly `max(count, 1)` codes, each of the shape five uppercase ASCII
alphanumerics, a hyphen, and five more uppercase ASCII alphanumerics,
and each with `current_post = None`, `used_direction = None`, and
`vote_type = None` regardless of the request's `vote_type`. -/
theorem admin_generate_spec (rng : Nat → Char) (s : AppState)
    (password : String) (req : KarmaGenerateRequest)
    (hadmin : is_admin s password = true)
    (hrng : ∀ n, isAsciiAlnum (rng n) = true) :
    ∃ s' created,
      admin_generate_karma_codes rng s password req = .ok (s', created)
      ∧ created.length = max req.count 1
      ∧ ∀ kc ∈ created,
          (∃ a b : List Char, a.length = 5 ∧ b.length = 5 ∧
            (∀ x ∈ a, isUpperAlnum x = true) ∧
            (∀ x ∈ b, isUpperAlnum x = true) ∧
            kc.code = String.mk a ++ "-" ++ String.mk b)
          ∧ kc.current_post = none ∧ kc.used_direction = none
          ∧ kc.vote_type = none := by
  unfold admin_generate_karma_codes
  rw [hadmin]
  simp only [Bool.not_true, Bool.false_eq_true, if_false]
  refine ⟨_, _, rfl, ?_, ?_⟩
  · simp
  · intro kc hkc
    simp only [List.mem_map, List.mem_range] at hkc
    obtain ⟨i, _, rfl⟩ := hkc
    have hlen : (genRaw rng i).length = 10 := by
      simp [genRaw]
    have hmem : ∀ x ∈ genRaw rng i, isUpperAlnum x = true := by
      intro x hx
      simp only [genRaw, List.mem_map] at hx
      obtain ⟨y, ⟨j, _, rfl⟩, rfl⟩ := hx
      exact toUpper_alnum _ (hrng _)
    refine ⟨⟨(genRaw rng i).take 5, (genRaw rng i).drop 5, ?_, ?_, ?_, ?_, ?_⟩,
      rfl, rfl, rfl⟩
    · simp [hlen]
    · simp [hlen]
    · intro x hx
      exact hmem x (List.mem_of_mem_take hx)
    · intro x hx
      exact hmem x (List.mem_of_mem_drop hx)
    · simp [genCode]

/-- Witness for `admin_generate_spec` with a concrete sampler, admin
state and request. -/
theorem admin_generate_spec_witness :
    is_admin sAdmin "pw" = true
    ∧ (∀ n, isAsciiAlnum (rngA n) = true)
    ∧ (∃ s' created,
        admin_generate_karma_codes rngA sAdmin "pw" req0 = .ok (s', created)
        ∧ created.length = max req0.count 1
        ∧ ∀ kc ∈ created,
            (∃ a b : List Char, a.length = 5 ∧ b.length = 5 ∧
              (∀ x ∈ a, isUpperAlnum x = true) ∧
              (∀ x ∈ b, isUpperAlnum x = true) ∧
              kc.code = String.mk a ++ "-" ++ String.mk b)
            ∧ kc.current_post = none ∧ kc.used_direction = none
            ∧ kc.vote_type = none) := by
  refine ⟨by decide, fun _ => rfl, ?_⟩
  exact admin_generate_spec rngA sAdmin "pw" req0 (by decide) (fun _ => rfl)

/-! ## C1 — inbox, restart, rehydration -/

/-- C1 (code bug): a valid envelope accepted via the inbox (response ok,
present in the index, durably stored) is gone from the in-memory index
after a restart, even though its record is still in the store: the inbox
writes the record under the raw id key while rehydration only considers
keys starting with "post:" (and a validated id is all hex digits, so it
never starts with "post:").  The restarted index is not equal to the set
of valid stored envelopes — it is empty. -/
theorem inbox_restart_drops_envelope :
    (inbox cX 0 (initState []) [envX]).2 = .ok ()
    ∧ (inbox cX 0 (initState []) [envX]).1.memory "ab" = some envX
    ∧ dbGet (inbox cX 0 (initState []) [envX]).1.db "ab" = some "ser:D"
    ∧ (restartState cX (inbox cX 0 (initState []) [envX]).1).memory "ab" = none
    ∧ dbGet (restartState cX (inbox cX 0 (initState []) [envX]).1).db "ab" =
        some "ser:D" := by
  refine ⟨by decide, by decide, by decide, by decide, by decide⟩

/-! ## C3 — vote error precedence and success effect -/

/-- C3: the vote operation returns its errors by precedence — 404 when
the code is absent; 400 when the envelope fails validation; 410 when the
code's expiry is before now; 409 when `current_post` is already set; 400
when `vote_type` is set and differs from the direction — and otherwise
succeeds, adding +1 for "upvote" and −1 otherwise to the envelope's post
id in `karma_votes` (defaulting to 0), leaving other posts untouched, and
updating the code with `current_post`, `used_direction`, and a
`vote_type` equal to the direction (unchanged if it was already the
direction, newly locked if it was `None`). -/
theorem karma_vote_precedence (c : Crypto) (now : Int) (s : AppState)
    (code : String) (envelope : Envelope) (d : String) :
    (s.karma_codes code = none →
      karma_vote c now s code envelope d = (s, .error .notFound))
    ∧ (∀ kc, s.karma_codes code = some kc →
        (validate_envelope c now envelope).isOk = false →
        karma_vote c now s code envelope d = (s, .error .badRequest))
    ∧ (∀ kc, s.karma_codes code = some kc →
        (validate_envelope c now envelope).isOk = true →
        kc.expires < now →
        karma_vote c now s code envelope d = (s, .error .gone))
    ∧ (∀ kc, s.karma_codes code = some kc →
        (validate_envelope c now envelope).isOk = true →
        ¬ kc.expires < now → kc.current_post.isSome = true →
        karma_vote c now s code envelope d = (s, .error .conflict))
    ∧ (∀ kc t, s.karma_codes code = some kc →
        (validate_envelope c now envelope).isOk = true →
        ¬ kc.expires < now → kc.current_post = none →
        kc.vote_type = some t → t ≠ d →
        karma_vote c now s code envelope d = (s, .error .badRequest))
    ∧ (∀ kc, s.karma_codes code = some kc →
        (validate_envelope c now envelope).isOk = true →
        ¬ kc.expires < now → kc.current_post = none →
        (kc.vote_type = none ∨ kc.vote_type = some d) →
        (karma_vote c now s code envelope d).2 = .ok ()
        ∧ (karma_vote c now s code envelope d).1.karma_votes envelope.id =
            some ((s.karma_votes envelope.id).getD 0 +
              (if d = "upvote" then 1 else -1))
        ∧ (∀ q, q ≠ envelope.id →
            (karma_vote c now s code envelope d).1.karma_votes q =
              s.karma_votes q)
        ∧ (karma_vote c now s code envelope d).1.karma_codes code =
            some { kc with
              current_post := some envelope.id
              used_direction := some d
              vote_type := some d }) := by
  refine ⟨?_, ?_, ?_, ?_, ?_, ?_⟩
  · intro hk
    simp [karma_vote, hk]
  · intro kc hk hval
    cases hv : validate_envelope c now envelope with
    | ok p => rw [hv] at hval; simp [Except.isOk, Except.toBool] at hval
    | error e => simp [karma_vote, hk, hv]
  · intro kc hk hval hexp
    cases hv : validate_envelope c now envelope with
    | ok p => simp [karma_vote, hk, hv, apply_karma_internal, hexp]
    | error e => rw [hv] at hval; simp [Except.isOk, Except.toBool] at hval
  · intro kc hk hval hexp hcp
    cases hv : validate_envelope c now envelope with
    | ok p => simp [karma_vote, hk, hv, apply_karma_internal, hexp, hcp]
    | error e => rw [hv] at hval; simp [Except.isOk, Except.toBool] at hval
  · intro kc t hk hval hexp hcp hvt hne
    cases hv : validate_envelope c now envelope with
    | ok p => simp [karma_vote, hk, hv, apply_karma_internal, hexp, hcp, hvt, hne]
    | error e => rw [hv] at hval; simp [Except.isOk, Except.toBool] at hval
  · intro kc hk hval hexp hcp hvt
    cases hv : validate_envelope c now envelope with
    | error e => rw [hv] at hval; simp [Except.isOk, Except.toBool] at hval
    | ok p =>
      have hmain : karma_vote c now s code envelope d =
          ({ s with
             karma_codes := mapInsert s.karma_codes code
               { kc with
                 current_post := some envelope.id
                 used_direction := some d
                 vote_type := some d }
             karma_votes := mapInsert s.karma_votes envelope.id
               ((s.karma_votes envelope.id).getD 0 +
                 (if d = "upvote" then 1 else -1)) }, .ok ()) := by
        rcases hvt with hvt | hvt
        · simp [karma_vote, hk, hv, apply_karma_internal, hexp, hcp, hvt]
        · simp [karma_vote, hk, hv, apply_karma_internal, hexp, hcp, hvt]
      refine ⟨?_, ?_, ?_, ?_⟩
      · rw [hmain]
      · rw [hmain]
        simp [mapInsert]
      · intro q hq
        rw [hmain]
        simp [mapInsert, hq]
      · rw [hmain]
        simp [mapInsert]

/-- Witness for `karma_vote_precedence`: a concrete fresh code votes
successfully (score 1 on post "ab"), and a missing code yields 404. -/
theorem karma_vote_precedence_witness :
    (sK.karma_codes "missing" = none
      ∧ karma_vote cX 0 sK "missing" envX "upvote" = (sK, .error .notFound))
    ∧ (sK.karma_codes "K" = some kcX
      ∧ (validate_envelope cX 0 envX).isOk = true
      ∧ ¬ kcX.expires < 0
      ∧ kcX.current_post = none
      ∧ (kcX.vote_type = none ∨ kcX.vote_type = some "upvote")
      ∧ (karma_vote cX 0 sK "K" envX "upvote").2 = .ok ()
      ∧ (karma_vote cX 0 sK "K" envX "upvote").1.karma_votes envX.id =
          some ((sK.karma_votes envX.id).getD 0 +
            (if "upvote" = "upvote" then 1 else -1))) := by
  refine ⟨⟨by decide, ?_⟩, by decide, by decide, by decide, by decide,
    Or.inl (by decide), ?_, ?_⟩
  · exact (karma_vote_precedence cX 0 sK "missing" envX "upvote").1 (by decide)
  · exact ((karma_vote_precedence cX 0 sK "K" envX "upvote").2.2.2.2.2 kcX
      (by decide) (by decide) (by decide) (by decide) (Or.inl (by decide))).1
  · exact ((karma_vote_precedence cX 0 sK "K" envX "upvote").2.2.2.2.2 kcX
      (by decide) (by decide) (by decide) (by decide) (Or.inl (by decide))).2.1

/-! ## C2 — apply then revoke -/

/-- C2 counterexample: voting with a fresh code on a post with no
existing `karma_votes` entry and then revoking does not restore the
`karma_votes` map — the entry materializes with value 0 (`or_insert(0)`
during apply, written back to 0 by revoke), while before the vote there
was no entry at all.  The per-post scores are restored; the map is not. -/
theorem apply_then_revoke_map_not_restored :
    (karma_vote cX 0 sK "K" envX "upvote").2 = .ok ()
    ∧ sK.karma_votes "ab" = none
    ∧ (karma_revoke (karma_vote cX 0 sK "K" envX "upvote").1 "K").1.karma_votes
        "ab" = some 0
    ∧ (karma_revoke (karma_vote cX 0 sK "K" envX "upvote").1 "K").1.karma_votes ≠
        sK.karma_votes := by
  refine ⟨by decide, rfl, by decide, ?_⟩
  intro hcontra
  exact absurd (congrFun hcontra "ab") (by decide)

/-- C2 (amended): for every karma code and valid envelope, applying a
vote that succeeds and then revoking the code leaves every post's karma
score — `karma_votes` read with default 0, as every reader of the map
does — equal to its value before the vote (the map itself may gain an
explicit 0 entry for the voted post); after the revoke the code's
`vote_type` equals the direction of the revoked vote while
`current_post` and `used_direction` are cleared, and the revoke reports
success. -/
theorem apply_then_revoke_scores (c : Crypto) (now : Int) (s : AppState)
    (code : String) (envelope : Envelope) (d : String)
    (h : (karma_vote c now s code envelope d).2 = .ok ()) :
    (∀ q,
      ((karma_revoke (karma_vote c now s code envelope d).1 code).1.karma_votes
          q).getD 0 = (s.karma_votes q).getD 0)
    ∧ (∃ kc₀, s.karma_codes code = some kc₀
        ∧ (karma_revoke (karma_vote c now s code envelope d).1
              code).1.karma_codes code =
            some { kc₀ with
              vote_type := some d
              current_post := none
              used_direction := none })
    ∧ (karma_revoke (karma_vote c now s code envelope d).1 code).2 = .ok () := by
  cases hk : s.karma_codes code with
  | none => simp [karma_vote, hk] at h
  | some kc =>
    cases hv : validate_envelope c now envelope with
    | error e => simp [karma_vote, hk, hv] at h
    | ok p =>
      by_cases hexp : kc.expires < now
      · simp [karma_vote, hk, hv, apply_karma_internal, hexp] at h
      · by_cases hcp : kc.current_post.isSome
        · simp [karma_vote, hk, hv, apply_karma_internal, hexp, hcp] at h
        · have hvt : kc.vote_type = none ∨ kc.vote_type = some d := by
            cases hvt0 : kc.vote_type with
            | none => exact Or.inl rfl
            | some t =>
              by_cases hne : t = d
              · exact Or.inr (hne ▸ rfl)
              · simp [karma_vote, hk, hv, apply_karma_internal, hexp, hcp,
                  hvt0, hne] at h
          have hmain : karma_vote c now s code envelope d =
              ({ s with
                 karma_codes := mapInsert s.karma_codes code
                   { kc with
                     current_post := some envelope.id
                     used_direction := some d
                     vote_type := some d }
                 karma_votes := mapInsert s.karma_votes envelope.id
                   ((s.karma_votes envelope.id).getD 0 +
                     (if d = "upvote" then 1 else -1)) }, .ok ()) := by
            rcases hvt with hvt | hvt
            · simp [karma_vote, hk, hv, apply_karma_internal, hexp, hcp, hvt]
            · simp [karma_vote, hk, hv, apply_karma_internal, hexp, hcp, hvt]
          rw [hmain]
          have hrev :
              karma_revoke
                ({ s with
                   karma_codes := mapInsert s.karma_codes code
                     { kc with
                       current_post := some envelope.id
                       used_direction := some d
                       vote_type := some d }
                   karma_votes := mapInsert s.karma_votes envelope.id
                     ((s.karma_votes envelope.id).getD 0 +
                       (if d = "upvote" then 1 else -1)) } : AppState) code =
              ({ s with
                 karma_codes := mapInsert
                   (mapInsert s.karma_codes code
                     { kc with
                       current_post := some envelope.id
                       used_direction := some d
                       vote_type := some d }) code
                   { kc with
                     current_post := none
                     used_direction := none
                     vote_type := some d }
                 karma_votes := mapInsert
                   (mapInsert s.karma_votes envelope.id
                     ((s.karma_votes envelope.id).getD 0 +
                       (if d = "upvote" then 1 else -1))) envelope.id
                   ((s.karma_votes envelope.id).getD 0 +
                     (if d = "upvote" then 1 else -1) +
                     (if d = "upvote" then -1 else 1)) }, .ok ()) := by
            simp [karma_revoke, mapInsert]
          rw [hrev]
          refine ⟨?_, ⟨kc, rfl, ?_⟩, rfl⟩
          · intro q
            by_cases hq : q = envelope.id
            · subst hq
              simp only [mapInsert, if_pos rfl]
              by_cases hd : d = "upvote" <;> simp [hd, Option.getD]
            · simp [mapInsert, hq]
          · simp [mapInsert]

/-- Witness for `apply_then_revoke_scores` at the concrete fresh code
and envelope. -/
theorem apply_then_revoke_scores_witness :
    (karma_vote cX 0 sK "K" envX "upvote").2 = .ok ()
    ∧ ((karma_revoke (karma_vote cX 0 sK "K" envX "upvote").1
          "K").1.karma_votes "ab").getD 0 = (sK.karma_votes "ab").getD 0
    ∧ (∃ kc₀, sK.karma_codes "K" = some kc₀
        ∧ (karma_revoke (karma_vote cX 0 sK "K" envX "upvote").1
              "K").1.karma_codes "K" =
            some { kc₀ with
              vote_type := some "upvote"
              current_post := none
              used_direction := none }) := by
  refine ⟨by decide, ?_, ?_⟩
  · exact (apply_then_revoke_scores cX 0 sK "K" envX "upvote" (by decide)).1 "ab"
  · exact (apply_then_revoke_scores cX 0 sK "K" envX "upvote" (by decide)).2.1

/-! ## C4 — inbox batch semantics -/

/-- Lookup after insert at the same key in the database model. -/
theorem dbGet_dbInsert (db : List (String × String)) (k v : String) :
    dbGet (dbInsert db k v) k = some v := by
  induction db with
  | nil => simp [dbInsert, dbGet]
  | cons head tail ih =>
    by_cases h : head.1 = k
    · simp [dbInsert, h, dbGet]
    · simp [dbInsert, h, dbGet, ih]

/-- Lookup after insert at a different key in the database model. -/
theorem dbGet_dbInsert_ne (db : List (String × String)) (k k' v : String)
    (h : k' ≠ k) : dbGet (dbInsert db k' v) k = dbGet db k := by
  induction db with
  | nil => simp [dbInsert, dbGet, h]
  | cons head tail ih =>
    by_cases hh : head.1 = k'
    · simp [dbInsert, hh, dbGet, h]
    · simp [dbInsert, hh, dbGet, ih]

/-- Imported-count and error-list characterization of the inbox loop:
the count grows by the number of envelopes that validate, and one error
message is recorded per envelope that fails. -/
theorem inboxLoop_counts (c : Crypto) (now : Int) (l : List Envelope) :
    ∀ (s : AppState) (n : Nat) (errs : List String),
    (inboxLoop c now l s n errs).2.1 =
      n + l.countP (fun e => (validate_envelope c now e).isOk)
    ∧ (inboxLoop c now l s n errs).2.2 =
      errs ++ (l.filter (fun e => !(validate_envelope c now e).isOk)).map
        (fun e => "Error validating post " ++ e.id) := by
  induction l with
  | nil => intro s n errs; simp [inboxLoop]
  | cons e rest ih =>
    intro s n errs
    cases hv : validate_envelope c now e with
    | ok p =>
      have := ih ({ s with
        db := dbInsert s.db e.id (c.serializeEnv e)
        memory := mapInsert s.memory e.id e }) (n + 1) errs
      simp only [inboxLoop, hv] at this ⊢
      refine ⟨?_, ?_⟩
      · rw [this.1]
        simp [List.countP_cons, hv, Except.isOk, Except.toBool]
        omega
      · rw [this.2]
        simp [List.filter_cons, hv, Except.isOk, Except.toBool]
    | error err =>
      have := ih s n (errs ++ ["Error validating post " ++ e.id])
      simp only [inboxLoop, hv] at this ⊢
      refine ⟨?_, ?_⟩
      · rw [this.1]
        simp [List.countP_cons, hv, Except.isOk, Except.toBool]
      · rw [this.2]
        simp [List.filter_cons, hv, Except.isOk, Except.toBool]

/-- The inbox loop leaves the index and store untouched at any key that
no validating envelope of the input carries. -/
theorem inboxLoop_preserves (c : Crypto) (now : Int) (l : List Envelope) :
    ∀ (s : AppState) (n : Nat) (errs : List String) (k : String),
    (∀ e ∈ l, (validate_envelope c now e).isOk = true → e.id ≠ k) →
    (inboxLoop c now l s n errs).1.memory k = s.memory k
    ∧ dbGet (inboxLoop c now l s n errs).1.db k = dbGet s.db k := by
  induction l with
  | nil => intro s n errs k _; simp [inboxLoop]
  | cons e rest ih =>
    intro s n errs k hk
    cases hv : validate_envelope c now e with
    | ok p =>
      have hne : e.id ≠ k := by
        refine hk e (List.mem_cons_self e rest) ?_
        simp [hv, Except.isOk, Except.toBool]
      have := ih ({ s with
        db := dbInsert s.db e.id (c.serializeEnv e)
        memory := mapInsert s.memory e.id e }) (n + 1) errs k
        (fun e' he' hv' => hk e' (List.mem_cons_of_mem _ he') hv')
      simp only [inboxLoop, hv] at this ⊢
      rw [this.1, this.2]
      constructor
      · simp only [mapInsert]
        rw [if_neg (fun h => hne h.symm)]
      · simpa using dbGet_dbInsert_ne s.db k e.id (c.serializeEnv e) hne
    | error err =>
      have := ih s n (errs ++ ["Error validating post " ++ e.id]) k
        (fun e' he' hv' => hk e' (List.mem_cons_of_mem _ he') hv')
      simp only [inboxLoop, hv] at this ⊢
      exact this

/-- Every envelope that validates ends up inserted: after the loop, the
index and the store hold, under its id, some validating envelope of the
input with that id (the last one processed). -/
theorem inboxLoop_inserts (c : Crypto) (now : Int) (l : List Envelope) :
    ∀ (s : AppState) (n : Nat) (errs : List String) (e : Envelope),
    e ∈ l → (validate_envelope c now e).isOk = true →
    ∃ e', e' ∈ l ∧ (validate_envelope c now e').isOk = true ∧ e'.id = e.id
      ∧ (inboxLoop c now l s n errs).1.memory e.id = some e'
      ∧ dbGet (inboxLoop c now l s n errs).1.db e.id =
          some (c.serializeEnv e') := by
  induction l with
  | nil => intro s n errs e he; exact absurd he (List.not_mem_nil e)
  | cons h rest ih =>
    intro s n errs e he hval
    rcases List.mem_cons.mp he with rfl | hmem
    · cases hv : validate_envelope c now e with
      | error err => simp [hv, Except.isOk, Except.toBool] at hval
      | ok p =>
        by_cases hrest : ∃ e'' ∈ rest,
            (validate_envelope c now e'').isOk = true ∧ e''.id = e.id
        · obtain ⟨e'', hmem'', hval'', hid''⟩ := hrest
          obtain ⟨e', he', hv', hid', hmem', hdb'⟩ := ih ({ s with
            db := dbInsert s.db e.id (c.serializeEnv e)
            memory := mapInsert s.memory e.id e }) (n + 1) errs e'' hmem'' hval''
          refine ⟨e', List.mem_cons_of_mem _ he', hv', hid''.symm ▸ hid', ?_, ?_⟩
          · rw [hid''] at hmem'
            simpa only [inboxLoop, hv] using hmem'
          · rw [hid''] at hdb'
            simpa only [inboxLoop, hv] using hdb'
        · have hnone : ∀ e'' ∈ rest,
              (validate_envelope c now e'').isOk = true → e''.id ≠ e.id := by
            intro e'' hm hv' heq
            exact hrest ⟨e'', hm, hv', heq⟩
          have hpres := inboxLoop_preserves c now rest ({ s with
            db := dbInsert s.db e.id (c.serializeEnv e)
            memory := mapInsert s.memory e.id e }) (n + 1) errs e.id hnone
          refine ⟨e, List.mem_cons_self e rest, hval, rfl, ?_, ?_⟩
          · rw [show (inboxLoop c now (e :: rest) s n errs) =
                inboxLoop c now rest ({ s with
                  db := dbInsert s.db e.id (c.serializeEnv e)
                  memory := mapInsert s.memory e.id e }) (n + 1) errs by
              simp [inboxLoop, hv]]
            rw [hpres.1]
            simp [mapInsert]
          · rw [show (inboxLoop c now (e :: rest) s n errs) =
                inboxLoop c now rest ({ s with
                  db := dbInsert s.db e.id (c.serializeEnv e)
                  memory := mapInsert s.memory e.id e }) (n + 1) errs by
              simp [inboxLoop, hv]]
            rw [hpres.2]
            simpa using dbGet_dbInsert s.db e.id (c.serializeEnv e)
    · cases hv : validate_envelope c now h with
      | ok p =>
        obtain ⟨e', he', hv', hid', hmem', hdb'⟩ := ih ({ s with
          db := dbInsert s.db h.id (c.serializeEnv h)
          memory := mapInsert s.memory h.id h }) (n + 1) errs e hmem hval
        exact ⟨e', List.mem_cons_of_mem _ he', hv', hid',
          by simpa only [inboxLoop, hv] using hmem',
          by simpa only [inboxLoop, hv] using hdb'⟩
      | error err =>
        obtain ⟨e', he', hv', hid', hmem', hdb'⟩ := ih s n
          (errs ++ ["Error validating post " ++ h.id]) e hmem hval
        exact ⟨e', List.mem_cons_of_mem _ he', hv', hid',
          by simpa only [inboxLoop, hv] using hmem',
          by simpa only [inboxLoop, hv] using hdb'⟩

/-- C4: the inbox returns a client error (400) exactly when no envelope
of the batch validated and at least one failed; in every other case —
including partial failure — it returns success; and every envelope that
validated is inserted into the store and index (under its id the final
state holds a validating input envelope with that id). -/
theorem inbox_spec (c : Crypto) (now : Int) (s : AppState)
    (l : List Envelope) :
    ((inbox c now s l).2 = .error .badRequest ↔
      (l.countP (fun e => (validate_envelope c now e).isOk) = 0
        ∧ ∃ e ∈ l, (validate_envelope c now e).isOk = false))
    ∧ ((inbox c now s l).2 = .error .badRequest ∨ (inbox c now s l).2 = .ok ())
    ∧ (∀ e ∈ l, (validate_envelope c now e).isOk = true →
        ∃ e', e' ∈ l ∧ (validate_envelope c now e').isOk = true
          ∧ e'.id = e.id
          ∧ (inbox c now s l).1.memory e.id = some e'
          ∧ dbGet (inbox c now s l).1.db e.id = some (c.serializeEnv e')) := by
  have hc := inboxLoop_counts c now l s 0 []
  have herr : (inboxLoop c now l s 0 []).2.2 ≠ [] ↔
      ∃ e ∈ l, (validate_envelope c now e).isOk = false := by
    rw [hc.2]
    simp only [List.nil_append, ne_eq, List.map_eq_nil_iff, List.filter_eq_nil_iff,
      Bool.not_eq_true]
    push_neg
    constructor
    · intro ⟨e, he, hv⟩
      exact ⟨e, he, by simpa using hv⟩
    · intro ⟨e, he, hv⟩
      exact ⟨e, he, by simpa using hv⟩
  refine ⟨?_, ?_, ?_⟩
  · constructor
    · intro hresp
      by_cases hcond : (inboxLoop c now l s 0 []).2.1 = 0
        ∧ (inboxLoop c now l s 0 []).2.2 ≠ []
      · refine ⟨?_, herr.mp hcond.2⟩
        have h1 := hc.1
        have h2 := hcond.1
        omega
      · simp only [inbox, if_neg hcond] at hresp
        exact absurd hresp (by simp)
    · intro ⟨hcnt, hex⟩
      have hcond : (inboxLoop c now l s 0 []).2.1 = 0
          ∧ (inboxLoop c now l s 0 []).2.2 ≠ [] := by
        constructor
        · rw [hc.1, hcnt]
        · exact herr.mpr hex
      simp [inbox, hcond]
  · by_cases hcond : (inboxLoop c now l s 0 []).2.1 = 0
      ∧ (inboxLoop c now l s 0 []).2.2 ≠ []
    · left; simp [inbox, hcond]
    · right; simp [inbox, hcond]
  · intro e he hval
    have hins := inboxLoop_inserts c now l s 0 [] e he hval
    obtain ⟨e', he', hv', hid', hmem', hdb'⟩ := hins
    refine ⟨e', he', hv', hid', ?_, ?_⟩
    · have hstate : (inbox c now s l).1 = (inboxLoop c now l s 0 []).1 := by
        simp only [inbox]
        split <;> rfl
      rw [hstate]; exact hmem'
    · have hstate : (inbox c now s l).1 = (inboxLoop c now l s 0 []).1 := by
        simp only [inbox]
        split <;> rfl
      rw [hstate]; exact hdb'

/-- Witness for `inbox_spec`: a batch of only an invalid envelope yields
400, and in a mixed batch the valid envelope is imported into index and
store while the response is characterized by the theorem. -/
theorem inbox_spec_witness :
    (([envBad].countP (fun e => (validate_envelope cX 0 e).isOk) = 0
      ∧ ∃ e ∈ [envBad], (validate_envelope cX 0 e).isOk = false)
    ∧ (inbox cX 0 (initState []) [envBad]).2 = .error .badRequest)
    ∧ ((envX ∈ [envX, envBad] ∧ (validate_envelope cX 0 envX).isOk = true)
    ∧ ∃ e', e' ∈ [envX, envBad] ∧ (validate_envelope cX 0 e').isOk = true
        ∧ e'.id = envX.id
        ∧ (inbox cX 0 (initState []) [envX, envBad]).1.memory envX.id = some e'
        ∧ dbGet (inbox cX 0 (initState []) [envX, envBad]).1.db envX.id =
            some (cX.serializeEnv e')) := by
  refine ⟨⟨⟨by decide, envBad, by simp, by decide⟩, ?_⟩, ⟨by simp, by decide⟩, ?_⟩
  · exact (inbox_spec cX 0 (initState []) [envBad]).1.mpr
      ⟨by decide, envBad, by simp, by decide⟩
  · exact (inbox_spec cX 0 (initState []) [envX, envBad]).2.2 envX (by simp)
      (by decide)

/-! ## C5 — inbox order dependence -/

/-- C5 counterexample: two distinct valid envelopes sharing the id "ab"
(same key, two different signed payloads — which real OpenPGP permits)
make the final index order-dependent: the later insert wins, so the two
orderings of the same input array produce different indexes. -/
theorem inbox_not_order_independent :
    ([envX, envY] : List Envelope).Perm [envY, envX]
    ∧ (validate_envelope cX 0 envX).isOk = true
    ∧ (validate_envelope cX 0 envY).isOk = true
    ∧ envX ≠ envY
    ∧ (inbox cX 0 (initState []) [envX, envY]).1.memory "ab" = some envY
    ∧ (inbox cX 0 (initState []) [envY, envX]).1.memory "ab" = some envX
    ∧ (inbox cX 0 (initState []) [envX, envY]).1.memory ≠
        (inbox cX 0 (initState []) [envY, envX]).1.memory := by
  refine ⟨List.Perm.swap envY envX [], by decide, by decide, by decide,
    by decide, by decide, ?_⟩
  intro h
  exact absurd (congrFun h "ab") (by decide)

/-- Index characterization of the inbox loop as a left fold of
conditional inserts. -/
theorem inboxLoop_memory (c : Crypto) (now : Int) (l : List Envelope) :
    ∀ (s : AppState) (n : Nat) (errs : List String),
    (inboxLoop c now l s n errs).1.memory =
      l.foldl (fun m e =>
        if (validate_envelope c now e).isOk then mapInsert m e.id e else m)
        s.memory := by
  induction l with
  | nil => intro s n errs; simp [inboxLoop]
  | cons e rest ih =>
    intro s n errs
    cases hv : validate_envelope c now e with
    | ok p =>
      simp only [inboxLoop, hv, List.foldl_cons]
      rw [ih]
      simp [hv, Except.isOk, Except.toBool]
    | error err =>
      simp only [inboxLoop, hv, List.foldl_cons]
      rw [ih]
      simp [hv, Except.isOk, Except.toBool]

/-- Inserts under distinct keys commute in the map model. -/
theorem mapInsert_comm {α : Type} (m : String → Option α) (k₁ k₂ : String)
    (v₁ v₂ : α) (h : k₁ ≠ k₂) :
    mapInsert (mapInsert m k₁ v₁) k₂ v₂ =
      mapInsert (mapInsert m k₂ v₂) k₁ v₁ := by
  funext q
  simp only [mapInsert]
  by_cases h₁ : q = k₁
  · by_cases h₂ : q = k₂
    · exact absurd (h₁.symm.trans h₂) h
    · simp [h₁, h₂, h]
  · by_cases h₂ : q = k₂
    · simp [h₁, h₂, Ne.symm h]
    · simp [h₁, h₂]

/-- C5 (amended): the final in-memory index of the inbox is independent
of the input order whenever no two distinct validating envelopes of the
batch share an id; without that proviso, the last same-id envelope wins
(see the counterexample). -/
theorem inbox_order_independent (c : Crypto) (now : Int) (s : AppState)
    (l₁ l₂ : List Envelope) (hp : l₁.Perm l₂)
    (huniq : ∀ e₁ ∈ l₁, ∀ e₂ ∈ l₁,
      (validate_envelope c now e₁).isOk = true →
      (validate_envelope c now e₂).isOk = true →
      e₁.id = e₂.id → e₁ = e₂) :
    (inbox c now s l₁).1.memory = (inbox c now s l₂).1.memory := by
  have hstate : ∀ l : List Envelope,
      (inbox c now s l).1 = (inboxLoop c now l s 0 []).1 := by
    intro l
    simp only [inbox]
    split <;> rfl
  rw [hstate, hstate, inboxLoop_memory, inboxLoop_memory]
  refine hp.foldl_eq' ?_ s.memory
  intro x hx y hy m
  by_cases vx : (validate_envelope c now x).isOk
  · by_cases vy : (validate_envelope c now y).isOk
    · by_cases hid : x.id = y.id
      · have : x = y := huniq x hx y hy vx vy hid
        subst this
        rfl
      · simp only [vx, vy, if_true]
        exact mapInsert_comm m x.id y.id x y hid
    · simp [vx, vy]
  · simp [vx]

/-- Witness for `inbox_order_independent`: swapping a valid envelope and
an invalid one (distinct-id proviso holds vacuously) leaves the final
index unchanged. -/
theorem inbox_order_independent_witness :
    ([envX, envBad] : List Envelope).Perm [envBad, envX]
    ∧ (∀ e₁ ∈ [envX, envBad], ∀ e₂ ∈ [envX, envBad],
        (validate_envelope cX 0 e₁).isOk = true →
        (validate_envelope cX 0 e₂).isOk = true →
        e₁.id = e₂.id → e₁ = e₂)
    ∧ (inbox cX 0 (initState []) [envX, envBad]).1.memory =
        (inbox cX 0 (initState []) [envBad, envX]).1.memory := by
  have huniq : ∀ e₁ ∈ [envX, envBad], ∀ e₂ ∈ [envX, envBad],
      (validate_envelope cX 0 e₁).isOk = true →
      (validate_envelope cX 0 e₂).isOk = true →
      e₁.id = e₂.id → e₁ = e₂ := by
    intro e₁ h₁ e₂ h₂ hv₁ hv₂ _
    simp only [List.mem_cons, List.not_mem_nil, or_false] at h₁ h₂
    rcases h₁ with rfl | rfl
    · rcases h₂ with rfl | rfl
      · rfl
      · exact absurd hv₂ (by decide)
    · exact absurd hv₁ (by decide)
  exact ⟨List.Perm.swap envBad envX [], huniq,
    inbox_order_independent cX 0 (initState []) _ _
      (List.Perm.swap envBad envX []) huniq⟩

/-! ## C10 — the spent-implies-scored invariant -/

/-- Simultaneously inserting a karma code whose `current_post` can only
be `pid` and a vote entry for `pid` preserves the invariant. -/
theorem karmaInv_insert_vote (s : AppState) (hinv : KarmaInv s)
    (code pid : String) (kcNew : KarmaCode) (v : Int)
    (hcp : ∀ p, kcNew.current_post = some p → p = pid) :
    KarmaInv { s with
      karma_codes := mapInsert s.karma_codes code kcNew
      karma_votes := mapInsert s.karma_votes pid v } := by
  intro code' kc' p' h1 h2
  simp only [mapInsert] at h1 ⊢
  by_cases hc : code' = code
  · rw [if_pos hc] at h1
    cases h1
    rw [hcp p' h2]
    simp
  · rw [if_neg hc] at h1
    by_cases hq : p' = pid
    · simp [hq]
    · rw [if_neg hq]
      exact hinv code' kc' p' h1 h2

/-- Folding fresh unspent codes into the code table preserves the
invariant against a fixed vote table. -/
theorem karmaInv_foldl_codes (votes : String → Option Int) :
    ∀ (lst : List KarmaCode) (m : String → Option KarmaCode),
    (∀ code kc p, m code = some kc → kc.current_post = some p →
      (votes p).isSome = true) →
    (∀ kc ∈ lst, kc.current_post = none) →
    ∀ code kc p,
      (lst.foldl (fun m kc => mapInsert m kc.code kc) m) code = some kc →
      kc.current_post = some p → (votes p).isSome = true := by
  intro lst
  induction lst with
  | nil => intro m hm _ code kc p h1 h2; exact hm code kc p h1 h2
  | cons k rest ih =>
    intro m hm hfresh code kc p h1 h2
    refine ih (mapInsert m k.code k) ?_
      (fun kc' hkc' => hfresh kc' (List.mem_cons_of_mem _ hkc')) code kc p
      (by simpa using h1) h2
    intro code' kc' p' hm' hcp'
    simp only [mapInsert] at hm'
    by_cases hc : code' = k.code
    · rw [if_pos hc] at hm'
      injection hm' with hkk
      subst hkk
      rw [hfresh k (List.mem_cons_self k rest)] at hcp'
      cases hcp'
    · rw [if_neg hc] at hm'
      exact hm code' kc' p' hm' hcp'

/-- The inbox loop does not touch the karma tables. -/
theorem inboxLoop_karma (c : Crypto) (now : Int) (l : List Envelope) :
    ∀ (s : AppState) (n : Nat) (errs : List String),
    (inboxLoop c now l s n errs).1.karma_codes = s.karma_codes
    ∧ (inboxLoop c now l s n errs).1.karma_votes = s.karma_votes := by
  induction l with
  | nil => intro s n errs; simp [inboxLoop]
  | cons e rest ih =>
    intro s n errs
    cases hv : validate_envelope c now e with
    | ok p =>
      simpa only [inboxLoop, hv] using ih ({ s with
        db := dbInsert s.db e.id (c.serializeEnv e)
        memory := mapInsert s.memory e.id e }) (n + 1) errs
    | error err =>
      simpa only [inboxLoop, hv] using ih s n
        (errs ++ ["Error validating post " ++ e.id])

/-- C10: every modelled operation preserves the invariant that a code
with `current_post = Some p` implies a `karma_votes` entry at `p`: it
holds of the initial state, is preserved by voting (which creates the
entry via default-0 insertion), by revoking (which never removes
entries), by code generation (fresh codes are unspent), by the inbox and
by restart; and under it, revoke's inverse-delta update of
`karma_votes[p]` finds the entry and writes the adjusted score. -/
theorem karma_inv_preserved :
    (∀ db, KarmaInv (initState db))
    ∧ (∀ c now s code envelope d, KarmaInv s →
        KarmaInv (karma_vote c now s code envelope d).1)
    ∧ (∀ s code, KarmaInv s → KarmaInv (karma_revoke s code).1)
    ∧ (∀ rng s pw req s' created, KarmaInv s →
        admin_generate_karma_codes rng s pw req = .ok (s', created) →
        KarmaInv s')
    ∧ (∀ c now s l, KarmaInv s → KarmaInv (inbox c now s l).1)
    ∧ (∀ c s, KarmaInv s → KarmaInv (restartState c s))
    ∧ (∀ s code kc p, KarmaInv s → s.karma_codes code = some kc →
        kc.current_post = some p →
        ∃ v, s.karma_votes p = some v
          ∧ (karma_revoke s code).1.karma_votes p =
              some (v + (if (match kc.used_direction with
                | some d => d
                | none => match kc.vote_type with
                  | some d => d
                  | none => "upvote") = "upvote" then -1 else 1))) := by
  refine ⟨?_, ?_, ?_, ?_, ?_, ?_, ?_⟩
  · intro db code kc p h1 _
    simp [initState] at h1
  · intro c now s code envelope d hinv
    cases hk : s.karma_codes code with
    | none => simpa [karma_vote, hk] using hinv
    | some kc =>
      cases hv : validate_envelope c now envelope with
      | error e => simpa [karma_vote, hk, hv] using hinv
      | ok p =>
        by_cases hexp : kc.expires < now
        · simpa [karma_vote, hk, hv, apply_karma_internal, hexp] using hinv
        · by_cases hcp : kc.current_post.isSome
          · simpa [karma_vote, hk, hv, apply_karma_internal, hexp, hcp]
              using hinv
          · cases hvt : kc.vote_type with
            | some t =>
              by_cases hne : t = d
              · have hmain : (karma_vote c now s code envelope d).1 =
                    { s with
                      karma_codes := mapInsert s.karma_codes code
                        { kc with
                          current_post := some envelope.id
                          used_direction := some d
                          vote_type := some t }
                      karma_votes := mapInsert s.karma_votes envelope.id
                        ((s.karma_votes envelope.id).getD 0 +
                          (if d = "upvote" then 1 else -1)) } := by
                  subst hne
                  simp [karma_vote, hk, hv, apply_karma_internal, hexp, hcp,
                    hvt]
                rw [hmain]
                exact karmaInv_insert_vote s hinv code envelope.id _ _
                  (fun p' hp' => by cases hp'; rfl)
              · simpa [karma_vote, hk, hv, apply_karma_internal, hexp, hcp,
                  hvt, hne] using hinv
            | none =>
              have hmain : (karma_vote c now s code envelope d).1 =
                  { s with
                    karma_codes := mapInsert s.karma_codes code
                      { kc with
                        current_post := some envelope.id
                        used_direction := some d
                        vote_type := some d }
                    karma_votes := mapInsert s.karma_votes envelope.id
                      ((s.karma_votes envelope.id).getD 0 +
                        (if d = "upvote" then 1 else -1)) } := by
                simp [karma_vote, hk, hv, apply_karma_internal, hexp, hcp, hvt]
              rw [hmain]
              exact karmaInv_insert_vote s hinv code envelope.id _ _
                (fun p' hp' => by cases hp'; rfl)
  · intro s code hinv
    cases hk : s.karma_codes code with
    | none => simpa [karma_revoke, hk] using hinv
    | some kc =>
      intro code' kc' p' h1 h2
      simp only [karma_revoke, hk] at h1 ⊢
      simp only [mapInsert] at h1
      by_cases hc : code' = code
      · rw [if_pos hc] at h1
        cases h1
        simp at h2
      · rw [if_neg hc] at h1
        have hold := hinv code' kc' p' h1 h2
        cases hcp : kc.current_post with
        | none => simpa [hcp] using hold
        | some pid =>
          cases hvv : s.karma_votes pid with
          | none => simpa [hcp, hvv] using hold
          | some score =>
            simp only [hcp, hvv, mapInsert]
            by_cases hq : p' = pid
            · simp [hq]
            · simpa [hq] using hold
  · intro rng s pw req s' created hinv hok
    by_cases hadmin : is_admin s pw
    · simp only [admin_generate_karma_codes, hadmin, Bool.not_true,
        Bool.false_eq_true, if_false, Except.ok.injEq] at hok
      obtain ⟨rfl, rfl⟩ := Prod.mk.injEq .. ▸ (Prod.ext_iff.mp hok.symm)
      intro code kc p h1 h2
      exact karmaInv_foldl_codes s.karma_votes _ s.karma_codes hinv
        (by
          intro kc' hkc'
          simp only [List.mem_map] at hkc'
          obtain ⟨i, _, rfl⟩ := hkc'
          rfl) code kc p h1 h2
    · simp [admin_generate_karma_codes, hadmin] at hok
  · intro c now s l hinv
    intro code kc p h1 h2
    have hstate : (inbox c now s l).1 = (inboxLoop c now l s 0 []).1 := by
      simp only [inbox]
      split <;> rfl
    rw [hstate, (inboxLoop_karma c now l s 0 []).1] at h1
    rw [hstate, (inboxLoop_karma c now l s 0 []).2]
    exact hinv code kc p h1 h2
  · intro c s _
    intro code kc p h1 _
    simp [restartState, initState] at h1
  · intro s code kc p hinv h1 h2
    have hsome := hinv code kc p h1 h2
    cases hvv : s.karma_votes p with
    | none => rw [hvv] at hsome; cases hsome
    | some v =>
      refine ⟨v, rfl, ?_⟩
      simp [karma_revoke, h1, h2, hvv, mapInsert]

/-- Witness for `karma_inv_preserved`: applied to the concrete
one-fresh-code state (which satisfies the invariant) after its
successful vote, whose revoke finds the vote entry. -/
theorem karma_inv_preserved_witness :
    KarmaInv sK
    ∧ KarmaInv (karma_vote cX 0 sK "K" envX "upvote").1
    ∧ (∃ v, (karma_vote cX 0 sK "K" envX "upvote").1.karma_votes "ab" = some v
        ∧ (karma_revoke (karma_vote cX 0 sK "K" envX "upvote").1
            "K").1.karma_votes "ab" =
            some (v + (if (match (some "upvote" : Option String) with
              | some d => d
              | none => match (some "upvote" : Option String) with
                | some d => d
                | none => "upvote") = "upvote" then -1 else 1))) := by
  have hinv : KarmaInv sK := by
    intro code kc p h1 h2
    simp only [sK, mapInsert, initState] at h1
    by_cases hc : code = "K"
    · rw [if_pos hc] at h1
      cases h1
      cases h2
    · rw [if_neg hc] at h1
      cases h1
  have hvote := (karma_inv_preserved.2.1) cX 0 sK "K" envX "upvote" hinv
  refine ⟨hinv, hvote, ?_⟩
  have happ := (karma_inv_preserved.2.2.2.2.2.2)
    (karma_vote cX 0 sK "K" envX "upvote").1 "K"
    { kcX with
      current_post := some "ab"
      used_direction := some "upvote"
      vote_type := some "upvote" } "ab" hvote (by decide) rfl
  exact happ

end Cow
